import Mathlib

/-!
Verification of the deployment reconciler implemented in
`huggingface_sagemaker_deployer/model_deployers/hf_sagemaker_model_deployer.py`
(class `HFSagemakerModelDeployer`).

The Python methods are embedded as pure Lean functions.  Calls against the
remote deployment platform (the vendor SDK client held in
`self.seldon_client`, and the `stop`/`start`/`update` methods of service
objects) are modelled by an explicit trace of `PlatformCall` values, and the
platform's responses to queries are passed in as explicit arguments, since the
platform itself is an external collaborator.  Python exceptions are modelled
with `Except`; machine-level details (UUIDs) are modelled with `Nat`.
-/

namespace HFSagemaker

/-- Python truthiness of an `Optional[str]` value: `None` and `""` are falsy. -/
def pyTruthy : Option String → Bool
  | none => false
  | some s => !s.data.isEmpty

/-- Python `a or b` on `Optional[str]` operands (used for
`config.secret_name or ...`): the left operand if truthy, else the right. -/
def pyOrElse (a b : Option String) : Option String :=
  if pyTruthy a then a else b

/-! ### Python `datetime` values and `datetime.strptime` for the fixed
`"%Y-%m-%dT%H:%M:%SZ"` format used by `find_model_server`. -/

/-- A calendar datetime as produced by Python `datetime.strptime`. -/
structure PyDateTime where
  year : Nat
  month : Nat
  day : Nat
  hour : Nat
  minute : Nat
  second : Nat
deriving DecidableEq, Repr

/-- Mixed-radix encoding of a datetime.  For field values in the ranges
enforced by parsing (month 1-12, day 1-31, hour 0-23, minute/second 0-59)
this is strictly monotone in the lexicographic field order, so comparing
keys as naturals models Python's `datetime` comparison. -/
def PyDateTime.key (d : PyDateTime) : Nat :=
  ((((d.year * 13 + d.month) * 32 + d.day) * 24 + d.hour) * 60 + d.minute) * 60 + d.second

/-- Python `datetime.min`, i.e. 0001-01-01 00:00:00. -/
def datetimeMin : PyDateTime := ⟨1, 1, 1, 0, 0, 0⟩

/-- Digit run to number, `none` if empty or a non-digit occurs. -/
def digitsToNat (l : List Char) : Option Nat :=
  l.foldl
    (fun acc c =>
      match acc with
      | none => none
      | some n => if c.isDigit then some (n * 10 + (c.toNat - '0'.toNat)) else none)
    (if l.isEmpty then none else some 0)

/-- Parse one numeric `strptime` field: at most `maxLen` digits, value within
`[lo, hi]` (CPython's `_strptime` field regexes allow 1 or 2 digits for
`%m %d %H %M %S` and exactly 4 for `%Y`; range violations raise). -/
def parseNatField (l : List Char) (maxLen lo hi : Nat) : Option Nat :=
  if l.length = 0 || maxLen < l.length then none
  else
    match digitsToNat l with
    | some n => if lo ≤ n && n ≤ hi then some n else none
    | none => none

/-- Gregorian leap-year rule, as used by Python `datetime`. -/
def isLeapYear (y : Nat) : Bool :=
  (y % 4 == 0 && y % 100 != 0) || y % 400 == 0

/-- Number of days of month `m` in year `y` (Python `datetime` rejects a
day outside this range with `ValueError: day is out of range for month`). -/
def daysInMonth (y m : Nat) : Nat :=
  if m = 2 then (if isLeapYear y then 29 else 28)
  else if m = 4 ∨ m = 6 ∨ m = 9 ∨ m = 11 then 30
  else 31

/-- Split a character list on a separator character; mirrors Python
`str.split(sep)`: splitting the empty string yields one empty part. -/
def splitOnChar (sep : Char) (l : List Char) : List (List Char) :=
  l.foldr
    (fun c acc =>
      match acc with
      | [] => [[c]]
      | g :: gs => if c = sep then [] :: g :: gs else (c :: g) :: gs)
    [[]]

/-- The exactly-4-digit `%Y` field; Python `datetime` requires year ≥ 1. -/
def parseYearField (l : List Char) : Option Nat :=
  if l.length = 4 then
    match digitsToNat l with
    | some n => if 1 ≤ n then some n else none
    | none => none
  else none

/-- `datetime.strptime(ts, "%Y-%m-%dT%H:%M:%SZ")`: `none` models the
`ValueError` raised on a string that does not match the format. -/
def parseTimestamp (ts : String) : Option PyDateTime :=
  match splitOnChar 'T' ts.data with
  | [datePart, timePart] =>
    (match splitOnChar '-' datePart with
     | [ys, ms, ds] =>
       (match timePart.reverse with
        | 'Z' :: bodyRev =>
          (match splitOnChar ':' bodyRev.reverse with
           | [hs, mins, ss] => do
             let y ← parseYearField ys
             let mo ← parseNatField ms 2 1 12
             let d ← parseNatField ds 2 1 (daysInMonth y mo)
             let h ← parseNatField hs 2 0 23
             let mi ← parseNatField mins 2 0 59
             let sec ← parseNatField ss 2 0 59
             pure ⟨y, mo, d, h, mi, sec⟩
           | _ => none)
        | _ => none)
     | _ => none)
  | _ => none

/-! ### Data model -/

/-- The fields of a `SeldonDeploymentConfig` that the reconciler reads or
writes (`ServiceConfig` identity fields plus the secret reference). -/
structure SeldonDeploymentConfig where
  pipeline_name : String
  run_name : String
  pipeline_step_name : String
  model_name : String
  model_uri : String
  implementation : String
  secret_name : Option String
deriving DecidableEq, Repr

/-- The metadata of a deployment resource as reported by the platform:
`creationTimestamp` is an optional string in `"%Y-%m-%dT%H:%M:%SZ"` format. -/
structure SeldonDeploymentMetadata where
  creationTimestamp : Option String
deriving DecidableEq, Repr

/-- A deployment record returned by the platform query
(`seldon_client.find_deployments`). -/
structure SeldonDeployment where
  uuid : Nat
  metadata : SeldonDeploymentMetadata
  config : SeldonDeploymentConfig
  isRunning : Bool
deriving DecidableEq, Repr

/-- A service object (`SeldonDeploymentService`) recreated from a deployment
resource; it retains the resource's identity, configuration, observed
running state and creation timestamp. -/
structure SeldonDeploymentService where
  uuid : Nat
  config : SeldonDeploymentConfig
  is_running : Bool
  creationTimestamp : Option String
deriving DecidableEq, Repr

/-- `SeldonDeploymentService.create_from_deployment`. -/
def create_from_deployment (d : SeldonDeployment) : SeldonDeploymentService :=
  ⟨d.uuid, d.config, d.isRunning, d.metadata.creationTimestamp⟩

/-- The optional filter arguments of `find_model_server`; the vendor SDK
turns them into a label query, so they identify the platform query made. -/
structure FindQuery where
  service_uuid : Option Nat
  pipeline_name : Option String
  run_name : Option String
  pipeline_step_name : Option String
  model_name : Option String
  model_uri : Option String
  model_type : Option String
deriving DecidableEq, Repr

/-- Errors raised by the embedded methods, by Python exception class. -/
inductive DeployerError where
  | notImplemented (msg : String)
  | runtimeError (msg : String)
  | valueError (msg : String)
deriving DecidableEq, Repr

/-- One call issued against the deployment platform (vendor SDK). -/
inductive PlatformCall where
  | findDeployments (q : FindQuery)
  | stopService (uuid : Nat)
  | updateService (uuid : Nat) (cfg : SeldonDeploymentConfig)
  | startService (svc : SeldonDeploymentService) (timeout : Nat)
  | createOrUpdateSecret (name : String)
  | deleteSecret (name : String)
deriving DecidableEq, Repr

instance {ε α : Type} [DecidableEq ε] [DecidableEq α] : DecidableEq (Except ε α) := fun x y =>
  match x, y with
  | .ok a, .ok b =>
    if h : a = b then .isTrue (by rw [h]) else .isFalse (fun c => by cases c; exact h rfl)
  | .error a, .error b =>
    if h : a = b then .isTrue (by rw [h]) else .isFalse (fun c => by cases c; exact h rfl)
  | .ok _, .error _ => .isFalse (fun c => by cases c)
  | .error _, .ok _ => .isFalse (fun c => by cases c)

/-! ### `find_model_server` -/

/-- The sort key computed for one deployment by `find_model_server`:
`datetime.strptime(ts, "%Y-%m-%dT%H:%M:%SZ") if ts else datetime.min`.
A falsy (absent/empty) timestamp yields `datetime.min`; a non-empty
timestamp that fails to parse raises `ValueError`. -/
def deploymentSortKey (d : SeldonDeployment) : Except DeployerError Nat :=
  match d.metadata.creationTimestamp with
  | none => .ok datetimeMin.key
  | some ts =>
    if ts.data.isEmpty then .ok datetimeMin.key
    else
      match parseTimestamp ts with
      | some dt => .ok dt.key
      | none => .error (.valueError ts)

/-- Total sort key (only used on deployments whose key does not raise). -/
def keyOfD (d : SeldonDeployment) : Nat :=
  match deploymentSortKey d with
  | .ok k => k
  | .error _ => 0

/-- Sort key of a service, through its retained creation timestamp. -/
def keyOfS (s : SeldonDeploymentService) : Nat :=
  keyOfD ⟨s.uuid, ⟨s.creationTimestamp⟩, s.config, s.is_running⟩

/-- Descending-creation-time order used by `find_model_server`'s sort. -/
def descByKey (a b : SeldonDeployment) : Prop := keyOfD b ≤ keyOfD a

instance : DecidableRel descByKey := fun _ _ => Nat.decLe _ _

instance : IsTotal SeldonDeployment descByKey :=
  ⟨fun a b => Nat.le_total (keyOfD b) (keyOfD a)⟩

instance : IsTrans SeldonDeployment descByKey :=
  ⟨fun _ _ _ h h' => Nat.le_trans h' h⟩

/-- `find_model_server(running, ...)`: issue the label query against the
platform (whose response is the `resp` argument), sort the returned
deployments in descending creation time (a stable sort, like Python's
`list.sort`; an unparsable non-empty timestamp raises `ValueError`),
then rebuild service objects, skipping non-running ones if `running`. -/
def find_model_server (resp : List SeldonDeployment) (running : Bool) (q : FindQuery) :
    Except DeployerError (List SeldonDeploymentService) × List PlatformCall :=
  let calls := [PlatformCall.findDeployments q]
  match resp.find? (fun d => !(deploymentSortKey d).isOk) with
  | some bad =>
    (.error (.valueError (bad.metadata.creationTimestamp.getD "")), calls)
  | none =>
    let sorted := resp.insertionSort descByKey
    let services :=
      (sorted.map create_from_deployment).filter (fun s => !(running && !s.is_running))
    (.ok services, calls)

/-! ### Artifact-store credentials and `_convert_artifact_store_secret` -/

/-- GCP credentials as returned by `artifact_store.get_credentials()`:
either a credentials dict (with a `"type"` entry and user fields) or a
connector token object. -/
inductive GCPCredentials where
  | dictCreds (type_ : Option String) (client_id : Option String)
      (client_secret : Option String) (refresh_token : Option String)
  | tokenCreds (token : String)
deriving DecidableEq, Repr

/-- Azure credentials object returned by `artifact_store.get_credentials()`. -/
structure AzureCredentials where
  connection_string : Option String
  sas_token : Option String
  account_name : Option String
  account_key : Option String
  client_id : Option String
  client_secret : Option String
  tenant_id : Option String
deriving DecidableEq, Repr

/-- The active artifact store: its flavor string, its id, and the
credentials its `get_credentials()` returns for each flavor.  `s3_credentials`
is the `(access_key_id, secret_access_key, session_token)` triple;
`s3_endpoint_url` models `config.client_kwargs["endpoint_url"]` when set. -/
structure ArtifactStore where
  flavor : String
  id : String
  s3_credentials : Option String × Option String × Option String
  s3_endpoint_url : Option String
  gcp_credentials : Option GCPCredentials
  azure_credentials : Option AzureCredentials
deriving DecidableEq, Repr

/-- The Seldon secret schema produced by the conversion, by constructor used
and the credential fields stored (JSON serialization of nested values kept
as the underlying data, which the reconciler never inspects). -/
inductive SeldonSecretSchema where
  | s3 (accessKeyId secretAccessKey sessionToken : Option String)
      (endpoint provider : Option String) (envAuth : Bool)
  | gs (serviceAccountCredentials clientId clientSecret token : Option String)
      (anonymous : Option Bool)
  | azure (account key sasUrl clientId clientSecret tenant : Option String)
      (envAuth : Bool)
deriving DecidableEq, Repr

/-- Python `token.split("=", maxsplit=1)`. -/
def splitEqOnce (token : List Char) : List (List Char) :=
  match splitOnChar '=' token with
  | [x] => [x]
  | x :: rest => [x, (rest.map (List.cons '=')).flatten.drop 1]
  | [] => []

/-- Python `dict(pairs)` over a list of token splits: raises `ValueError`
(modelled as `none`) if any entry is not a 2-element list; later entries
override earlier ones for equal keys. -/
def dictOfPairs (l : List (List (List Char))) : Option (List (List Char × List Char)) :=
  l.foldl
    (fun acc kv =>
      match acc, kv with
      | some d, [k, v] => some (d ++ [(k, v)])
      | _, _ => none)
    (some [])

/-- Dict lookup (last binding wins, as Python dict insertion overrides). -/
def dictFind (d : List (List Char × List Char)) (k : List Char) : Option (List Char) :=
  (d.reverse.find? (fun kv => kv.1 = k)).map (·.2)

/-- Extract `AccountName` and `AccountKey` from an Azure connection string,
mirroring lines 391-404 of the source: split on `";"`, split each token on
the first `"="`, build a dict, and read the two keys.  `none` models the
`(KeyError, ValueError)` pair caught there and re-raised as `RuntimeError`. -/
def azureAccountFromConnectionString (cs : String) : Option (String × String) :=
  let tokens := splitOnChar ';' cs.data
  match dictOfPairs (tokens.map splitEqOnce) with
  | none => none
  | some d =>
    match dictFind d "AccountName".data, dictFind d "AccountKey".data with
    | some an, some ak => some (⟨an⟩, ⟨ak⟩)
    | _, _ => none

/-- `_convert_artifact_store_secret`: convert the active artifact store's
credentials into a Seldon secret schema, or raise `RuntimeError`. -/
def convert_artifact_store_secret (store : ArtifactStore) :
    Except DeployerError SeldonSecretSchema :=
  if store.flavor = "s3" then
    let (aws_access_key_id, aws_secret_access_key, aws_session_token) := store.s3_credentials
    if pyTruthy aws_access_key_id && pyTruthy aws_secret_access_key then
      match store.s3_endpoint_url with
      | some endpoint =>
        .ok (.s3 aws_access_key_id aws_secret_access_key aws_session_token
          (some endpoint) (some "Minio") false)
      | none =>
        .ok (.s3 aws_access_key_id aws_secret_access_key aws_session_token none none false)
    else
      -- implicit in-cluster IAM authentication
      .ok (.s3 none none none none none true)
  else if store.flavor = "gcp" then
    match store.gcp_credentials with
    | some (.dictCreds type_ client_id client_secret refresh_token) =>
      if type_ = some "service_account" then
        .ok (.gs (some "service-account-json") none none none none)
      else if type_ = some "authorized_user" then
        .ok (.gs none client_id client_secret refresh_token none)
      else
        -- dict of an unrecognized type falls through to the warning
        .ok (.gs none none none none (some false))
    | some (.tokenCreds token) =>
      -- connector token-based authentication
      .ok (.gs none none none (some token) none)
    | none => .ok (.gs none none none none (some false))
  else if store.flavor = "azure" then
    match store.azure_credentials with
    | some az =>
      match az.connection_string with
      | some cs =>
        (match azureAccountFromConnectionString cs with
         | some (account_name, account_key) =>
           .ok (.azure (some account_name) (some account_key) none none none none false)
         | none =>
           .error (.runtimeError
             "The Azure connection string configured for the artifact store expected format."))
      | none =>
        if az.sas_token.isSome then
          .ok (.azure none none az.sas_token none none none false)
        else if az.account_name.isSome && az.account_key.isSome then
          .ok (.azure az.account_name az.account_key none none none none false)
        else if az.client_id.isSome && az.client_secret.isSome &&
            az.tenant_id.isSome && az.account_name.isSome then
          .ok (.azure none none none az.client_id az.client_secret az.tenant_id false)
        else
          .ok (.azure none none none none none none true)
    | none => .ok (.azure none none none none none none true)
  else
    .error (.runtimeError
      ("The Seldon Core model deployer doesn't know how to configure credentials "
        ++ "automatically for the `" ++ store.flavor ++ "` active artifact store flavor."))

/-! ### Kubernetes secret name and `_create_or_update_kubernetes_secret` -/

/-- The fields of the model deployer's own configuration that the
reconciler reads. -/
structure HFSagemakerModelDeployerConfig where
  kubernetes_secret_name : Option String
  secret : Option String
deriving DecidableEq, Repr

/-- A character allowed by the sanitizing regex `[^0-9a-zA-Z-]+`. -/
def allowedNameChar (c : Char) : Bool :=
  c.isDigit || (('a' ≤ c && c ≤ 'z') || ('A' ≤ c && c ≤ 'Z')) || c = '-'

/-- `re.sub(r"[^0-9a-zA-Z-]+", "-", s)`: each maximal run of disallowed
characters is replaced by a single `'-'`.  The boolean accumulator records
whether the previous character was inside a disallowed run. -/
def collapseDisallowed (l : List Char) : List Char :=
  (l.foldl
    (fun (acc : List Char × Bool) c =>
      if allowedNameChar c then (acc.1 ++ [c], false)
      else if acc.2 then acc
      else (acc.1 ++ ['-'], true))
    ([], false)).1

/-- Python `str.strip("-")`. -/
def stripDashes (l : List Char) : List Char :=
  ((l.dropWhile (· = '-')).reverse.dropWhile (· = '-')).reverse

/-- ASCII lowercasing (the sanitized ids are ASCII). -/
def asciiToLower (c : Char) : Char :=
  if 'A' ≤ c && c ≤ 'Z' then Char.ofNat (c.toNat + 32) else c

/-- The derived Kubernetes secret name
`re.sub(r"[^0-9a-zA-Z-]+", "-", f"zenml-seldon-core-{artifact_store.id}").strip("-").lower()`. -/
def derivedSecretName (store : ArtifactStore) : String :=
  ⟨(stripDashes (collapseDisallowed ("zenml-seldon-core-" ++ store.id).data)).map asciiToLower⟩

/-- The `kubernetes_secret_name` property: the explicitly configured name if
truthy, else the name derived from the active artifact store's id. -/
def kubernetes_secret_name (dcfg : HFSagemakerModelDeployerConfig) (store : ArtifactStore) :
    String :=
  if pyTruthy dcfg.kubernetes_secret_name then dcfg.kubernetes_secret_name.getD ""
  else derivedSecretName store

/-- Whether `Client().get_secret_by_name_and_scope(self.config.secret)`
finds the configured ZenML secret (an external secrets-store lookup). -/
structure DeployEnv where
  zenmlSecretFound : Bool
  stopRaises : Nat → Bool
  startRaises : Bool

/-- `_create_or_update_kubernetes_secret`: return the pre-configured secret
name if any; else create a Kubernetes secret from the configured ZenML
secret (raising `RuntimeError` if it is not found in the secrets store) or
from the converted artifact-store credentials, and return its name. -/
def create_or_update_kubernetes_secret (dcfg : HFSagemakerModelDeployerConfig)
    (store : ArtifactStore) (env : DeployEnv) :
    Except DeployerError (Option String) × List PlatformCall :=
  if pyTruthy dcfg.kubernetes_secret_name then
    (.ok dcfg.kubernetes_secret_name, [])
  else if pyTruthy dcfg.secret then
    if env.zenmlSecretFound then
      let name := kubernetes_secret_name dcfg store
      (.ok (some name), [PlatformCall.createOrUpdateSecret name])
    else
      (.error (.runtimeError
        "The ZenML secret specified in the Seldon Core Model Deployer configuration was not found in the secrets store."),
        [])
  else
    match convert_artifact_store_secret store with
    | .error e => (.error e, [])
    | .ok _ =>
      let name := kubernetes_secret_name dcfg store
      (.ok (some name), [PlatformCall.createOrUpdateSecret name])

/-- `_delete_kubernetes_secret`: never delete the pre-configured secret;
otherwise query all deployments (`allResp` is the platform's response) and
delete the secret only when no service still references it. -/
def delete_kubernetes_secret (allResp : List SeldonDeployment)
    (dcfg : HFSagemakerModelDeployerConfig) (secret_name : String) :
    Except DeployerError Unit × List PlatformCall :=
  if dcfg.kubernetes_secret_name = some secret_name then (.ok (), [])
  else
    match find_model_server allResp false ⟨none, none, none, none, none, none, none⟩ with
    | (.error e, calls) => (.error e, calls)
    | (.ok services, calls) =>
      if services.any (fun s => s.config.secret_name = some secret_name) then
        (.ok (), calls)
      else
        (.ok (), calls ++ [PlatformCall.deleteSecret secret_name])

/-! ### `deploy_model` -/

/-- The replace-mode consolidation loop of `deploy_model` (source lines
555-567), threading the retained service and the stop attempts made: the
first equivalent service encountered becomes the retained one; for every
later one the code calls `service.stop()` — on the *retained* service
object — and swallows any `RuntimeError` it raises. -/
def consolidateEquivalents (equivalent_services : List SeldonDeploymentService) :
    Option SeldonDeploymentService × List PlatformCall :=
  equivalent_services.foldl
    (fun acc equivalent_service =>
      match acc.1 with
      | none => (some equivalent_service, acc.2)
      | some s => (some s, acc.2 ++ [PlatformCall.stopService s.uuid]))
    (none, [])

/-- The query `deploy_model` makes when `replace` is true. -/
def equivalentsQuery (config : SeldonDeploymentConfig) : FindQuery :=
  ⟨none, some config.pipeline_name, none, some config.pipeline_step_name,
    some config.model_name, none, none⟩

/-- The secret-resolution statement of `deploy_model` (source lines 569-574):
`config.secret_name = config.secret_name or self._create_or_update_kubernetes_secret()`.
By Python `or` short-circuit, the secret creation runs only when the
config's own secret reference is falsy; the assignment then mutates the
caller's config object. -/
def resolveConfigSecret (dcfg : HFSagemakerModelDeployerConfig) (store : ArtifactStore)
    (env : DeployEnv) (config : SeldonDeploymentConfig) :
    Except DeployerError SeldonDeploymentConfig × List PlatformCall :=
  if pyTruthy config.secret_name then (.ok config, [])
  else
    match create_or_update_kubernetes_secret dcfg store env with
    | (.error e, c) => (.error e, c)
    | (.ok resolved, c) => (.ok { config with secret_name := resolved }, c)

/-- The outcome of a successful deploy: the returned service object and the
final state of the (mutated) configuration object the caller passed in. -/
structure DeployResult where
  service : SeldonDeploymentService
  finalConfig : SeldonDeploymentConfig
deriving DecidableEq, Repr

/-- The part of `deploy_model` after the replace-mode consolidation (source
lines 569-604): resolve the config's secret reference, then update the
retained service in place (preserving its UUID and creation time) or
construct a new service bound to the config, then `service.start(timeout)`.
`service0` is the retained service (if any), `calls1` the platform calls
already made. -/
def deployPhase2 (dcfg : HFSagemakerModelDeployerConfig) (store : ArtifactStore)
    (env : DeployEnv) (config : SeldonDeploymentConfig) (timeout newUuid : Nat)
    (service0 : Option SeldonDeploymentService) (calls1 : List PlatformCall) :
    Except DeployerError DeployResult × List PlatformCall :=
  match resolveConfigSecret dcfg store env config with
  | (.error e, c2) => (.error e, calls1 ++ c2)
  | (.ok config1, c2) =>
    match service0 with
    | some s =>
      -- service.update(config): in place, preserving uuid and creation time
      let s1 := { s with config := config1 }
      let c3 := calls1 ++ c2 ++
        [PlatformCall.updateService s.uuid config1, PlatformCall.startService s1 timeout]
      if env.startRaises then (.error (.runtimeError "service start failed"), c3)
      else (.ok ⟨s1, config1⟩, c3)
    | none =>
      let s1 : SeldonDeploymentService := ⟨newUuid, config1, false, none⟩
      let c3 := calls1 ++ c2 ++ [PlatformCall.startService s1 timeout]
      if env.startRaises then (.error (.runtimeError "service start failed"), c3)
      else (.ok ⟨s1, config1⟩, c3)

/-- `deploy_model(config, replace, timeout)`.  `equivResp` is the platform's
response to the equivalents query (when `replace` is true), `newUuid` the
identity the framework assigns to a newly constructed service.  Returns the
result (or the first exception raised) together with the trace of platform
calls attempted, in order: the equivalents query and the consolidation stop
attempts, then the secret resolution (only evaluated when
`config.secret_name` is falsy, by `or` short-circuit), then the in-place
update of the retained service or the construction of a new one, then
`service.start(timeout)`. -/
def deploy_model (equivResp : List SeldonDeployment)
    (dcfg : HFSagemakerModelDeployerConfig) (store : ArtifactStore) (env : DeployEnv)
    (config : SeldonDeploymentConfig) (replace : Bool) (timeout : Nat) (newUuid : Nat) :
    Except DeployerError DeployResult × List PlatformCall :=
  if replace then
    match find_model_server equivResp false (equivalentsQuery config) with
    | (.error e, calls) => (.error e, calls)
    | (.ok equivalent_services, calls) =>
      deployPhase2 dcfg store env config timeout newUuid
        (consolidateEquivalents equivalent_services).1
        (calls ++ (consolidateEquivalents equivalent_services).2)
  else
    deployPhase2 dcfg store env config timeout newUuid none []

/-! ### `stop_model_server`, `start_model_server`, `delete_model_server` -/

/-- `stop_model_server`: unconditionally raises `NotImplementedError`
before any platform interaction. -/
def stop_model_server (_uuid : Nat) (_timeout : Nat) (_force : Bool) :
    Except DeployerError Unit × List PlatformCall :=
  (.error (.notImplemented
    "Stopping Seldon Core model servers is not implemented. Try deleting the Seldon Core model server instead."),
   [])

/-- `start_model_server`: unconditionally raises `NotImplementedError`
before any platform interaction. -/
def start_model_server (_uuid : Nat) (_timeout : Nat) :
    Except DeployerError Unit × List PlatformCall :=
  (.error (.notImplemented "Starting Seldon Core model servers is not implemented"), [])

/-- The query `delete_model_server` makes to look up a service by UUID. -/
def uuidQuery (uuid : Nat) : FindQuery :=
  ⟨some uuid, none, none, none, none, none, none⟩

/-- `delete_model_server(uuid, timeout, force)`: look the service up by UUID
(`lookupResp` is the platform's response); return silently when nothing is
found; otherwise stop the first service of the (sorted) result and, if its
configuration carries a truthy secret name, run the conditional secret
cleanup (`allResp` is the response to the unfiltered query made there). -/
def delete_model_server (lookupResp allResp : List SeldonDeployment)
    (dcfg : HFSagemakerModelDeployerConfig) (env : DeployEnv)
    (uuid : Nat) (_timeout : Nat) (_force : Bool) :
    Except DeployerError Unit × List PlatformCall :=
  match find_model_server lookupResp false (uuidQuery uuid) with
  | (.error e, c1) => (.error e, c1)
  | (.ok [], c1) => (.ok (), c1)
  | (.ok (service :: _), c1) =>
    let c2 := c1 ++ [PlatformCall.stopService service.uuid]
    if env.stopRaises service.uuid then
      (.error (.runtimeError "service stop failed"), c2)
    else
      if pyTruthy service.config.secret_name then
        let out := delete_kubernetes_secret allResp dcfg (service.config.secret_name.getD "")
        (out.1, c2 ++ out.2)
      else (.ok (), c2)

/-! ### Platform-state semantics of the calls -/

/-- Modelled from the spec: the effect of each platform primitive (a
vendor-SDK call outside this repository) on the set of deployments the
platform knows.  Per the spec's data model, a stop deprovisions the
deployment, an update rewrites its configuration in place preserving
identity and creation time, a start (re)creates the service's deployment in
running state, and secret calls leave deployments unchanged.  This is only
applied to traces of runs in which no call raised. -/
def applyCall (st : List SeldonDeployment) : PlatformCall → List SeldonDeployment
  | .findDeployments _ => st
  | .stopService u => st.filter (fun d => d.uuid ≠ u)
  | .updateService u cfg =>
    st.map (fun d => if d.uuid = u then { d with config := cfg } else d)
  | .startService svc _ =>
    (st.filter (fun d => d.uuid ≠ svc.uuid)) ++
      [⟨svc.uuid, ⟨svc.creationTimestamp⟩, svc.config, true⟩]
  | .createOrUpdateSecret _ => st
  | .deleteSecret _ => st

/-- The platform state after a trace of calls. -/
def applyTrace (st : List SeldonDeployment) (tr : List PlatformCall) : List SeldonDeployment :=
  tr.foldl applyCall st

/-- The equivalence key: (pipeline name, pipeline-step name, model name). -/
def equivKey (c : SeldonDeploymentConfig) : String × String × String :=
  (c.pipeline_name, c.pipeline_step_name, c.model_name)

/-- Whether a platform call is a stop of some service. -/
def isStopCall : PlatformCall → Bool
  | .stopService _ => true
  | _ => false

/-- Whether a platform call is a start of some service. -/
def isStartCall : PlatformCall → Bool
  | .startService _ _ => true
  | _ => false

/-- The deployment's sort key computes without raising. -/
def timestampOk (d : SeldonDeployment) : Prop := (deploymentSortKey d).isOk = true

instance (d : SeldonDeployment) : Decidable (timestampOk d) := by
  unfold timestampOk; infer_instance

/-! ### Concrete fixtures -/

/-- A deployment request configuration (already carrying a secret name). -/
def cfg0 : SeldonDeploymentConfig :=
  ⟨"pipe", "run", "step", "model", "s3://m2", "custom", some "sec"⟩

/-- The newer of two equivalent deployments (created 2023-05-02). -/
def depA : SeldonDeployment :=
  ⟨1, ⟨some "2023-05-02T00:00:00Z"⟩,
    ⟨"pipe", "run", "step", "model", "s3://m1", "custom", some "secA"⟩, true⟩

/-- The older of two equivalent deployments (created 2023-05-01). -/
def depB : SeldonDeployment :=
  ⟨2, ⟨some "2023-05-01T00:00:00Z"⟩,
    ⟨"pipe", "run", "step", "model", "s3://m0", "custom", some "secB"⟩, true⟩

/-- An environment in which no platform call raises. -/
def benignEnv : DeployEnv := ⟨true, fun _ => false, false⟩

/-- A deployer configuration with no pre-configured secret. -/
def dcfg0 : HFSagemakerModelDeployerConfig := ⟨none, none⟩

/-- An S3 artifact store with no credentials configured. -/
def store0 : ArtifactStore := ⟨"s3", "id0", (none, none, none), none, none, none⟩

/-! ### Claims -/

/-- C1: the claim states that `deploy(config, replace=true)` with two or more
equivalent existing Services stops each *superseded* candidate exactly once.
The code does not: inside the consolidation loop (source lines 555-567) it
calls `service.stop()` on the *retained* most-recent service instead of
`equivalent_service.stop()`, contradicting its own comment ("delete the
older services") and docstring ("the others are deleted").  Evaluating the
embedded `deploy_model` on two equivalent services A (newer, uuid 1) and B
(older, uuid 2): the deploy succeeds and returns the updated retained
service A, but the stop attempt targets A, and B is never stopped. -/
theorem deploy_replace_stops_retained_not_superseded :
    deploy_model [depA, depB] dcfg0 store0 benignEnv cfg0 true 300 99 =
      (.ok ⟨⟨1, cfg0, true, some "2023-05-02T00:00:00Z"⟩, cfg0⟩,
        [.findDeployments (equivalentsQuery cfg0),
         .stopService 1,
         .updateService 1 cfg0,
         .startService ⟨1, cfg0, true, some "2023-05-02T00:00:00Z"⟩ 300]) ∧
    (deploy_model [depA, depB] dcfg0 store0 benignEnv cfg0 true 300 99).2.count
        (.stopService depB.uuid) = 0 := by
  constructor <;> decide

/-- C2: the claim states that after `deploy(replace=true)` at most one
Service exists per equivalence key among those the platform reported, the
superseded ones each having had a stop issued.  Because the consolidation
loop stops the retained service instead of the superseded one (source lines
555-567), after the same two-equivalent run as in the C1 counterexample the
platform still holds *two* deployments with the deploy's equivalence key
(the re-started retained A and the untouched older B), and no stop was ever
issued against B. -/
theorem deploy_replace_breaks_one_per_key_invariant :
    (applyTrace [depA, depB]
        (deploy_model [depA, depB] dcfg0 store0 benignEnv cfg0 true 300 99).2).countP
      (fun d => equivKey d.config = equivKey cfg0) = 2 ∧
    (deploy_model [depA, depB] dcfg0 store0 benignEnv cfg0 true 300 99).2.count
        (.stopService depB.uuid) = 0 ∧
    (deploy_model [depA, depB] dcfg0 store0 benignEnv cfg0 true 300 99).1.isOk = true := by
  refine ⟨?_, ?_, ?_⟩ <;> decide

/-- C5: for every serviceId, timeout and force flag, both `stop_model_server`
and `start_model_server` fail immediately with `NotImplementedError` (the
unsupported-operation error kind) and issue zero platform calls. -/
theorem start_stop_not_supported (uuid timeout : Nat) (force : Bool) :
    stop_model_server uuid timeout force =
      (.error (.notImplemented
        "Stopping Seldon Core model servers is not implemented. Try deleting the Seldon Core model server instead."),
       []) ∧
    start_model_server uuid timeout =
      (.error (.notImplemented "Starting Seldon Core model servers is not implemented"),
       []) :=
  ⟨rfl, rfl⟩

/-- C6: for every serviceId whose lookup returns no existing Service,
`delete_model_server` succeeds silently and the only platform call made is
the initial UUID-labelled lookup. -/
theorem delete_nonexistent_is_silent_noop (allResp : List SeldonDeployment)
    (dcfg : HFSagemakerModelDeployerConfig) (env : DeployEnv)
    (uuid timeout : Nat) (force : Bool) :
    delete_model_server [] allResp dcfg env uuid timeout force =
      (.ok (), [.findDeployments (uuidQuery uuid)]) := rfl

/-- C7: for every platform response, `find` with `running=true` returns
exactly the running-filtered full result of `find` with `running=false`, in
the same relative order (and makes the same platform query); in particular,
when the unfiltered `find` raises, the filtered one raises identically. -/
theorem find_running_filters_preserving_order (resp : List SeldonDeployment) (q : FindQuery) :
    find_model_server resp true q =
      ((find_model_server resp false q).1.map (fun l => l.filter (fun s => s.is_running)),
        (find_model_server resp false q).2) := by
  unfold find_model_server
  cases h : resp.find? (fun d => !(deploymentSortKey d).isOk) with
  | some bad => simp [Except.map]
  | none =>
    simp only [Except.map]
    refine Prod.ext ?_ rfl
    simp only []
    congr 1
    rw [List.filter_filter]
    refine (List.filter_congr ?_).symm
    intro s _
    simp

/-- A deployment whose creation timestamp is present but does not match the
`"%Y-%m-%dT%H:%M:%SZ"` format. -/
def depBad : SeldonDeployment := ⟨7, ⟨some "not-a-date"⟩, cfg0, true⟩

/-- C3 counterexample: the claim states that a record with an *unparsable*
creation timestamp is treated as oldest and that `find` does not raise on
such records.  In the code the `datetime.min` fallback only covers falsy
(absent/empty) timestamps; a non-empty malformed timestamp makes
`datetime.strptime` raise `ValueError`, which propagates out of
`find_model_server` (source lines 661-669). -/
theorem find_raises_on_unparsable_timestamp :
    (find_model_server [depA, depBad] false ⟨none, none, none, none, none, none, none⟩).1 =
      .error (.valueError "not-a-date") := by decide

/-- A service with a falsy (missing or empty) creation timestamp carries the
`datetime.min` sort key. -/
theorem keyOfS_of_missing (s : SeldonDeploymentService)
    (h : pyTruthy s.creationTimestamp = false) : keyOfS s = datetimeMin.key := by
  unfold keyOfS keyOfD deploymentSortKey
  cases hts : s.creationTimestamp with
  | none => rfl
  | some ts =>
    rw [hts] at h
    simp only [pyTruthy, Bool.not_eq_false'] at h
    simp [h]

/-- C3 (amended): for every platform response in which every record's
timestamp is either falsy or parsable under the fixed format, `find`
succeeds and returns the matching Services sorted in descending order of
creation time, a record with a falsy timestamp being treated as the oldest
possible value (`datetime.min`) — so nothing with a later creation time
follows it, regardless of its position in the raw response.  (A non-empty
*unparsable* timestamp instead raises, per the counterexample.) -/
theorem find_sorted_desc_of_parsable (resp : List SeldonDeployment) (q : FindQuery)
    (h : ∀ d ∈ resp, timestampOk d) :
    ∃ l, (find_model_server resp false q).1 = .ok l ∧
      l.Pairwise (fun a b => keyOfS b ≤ keyOfS a) ∧
      l.Perm (resp.map create_from_deployment) ∧
      (∀ s ∈ l, pyTruthy s.creationTimestamp = false → keyOfS s = datetimeMin.key) ∧
      l.Pairwise (fun a b =>
        pyTruthy a.creationTimestamp = false → keyOfS b ≤ datetimeMin.key) := by
  have hfind : resp.find? (fun d => !(deploymentSortKey d).isOk) = none := by
    rw [List.find?_eq_none]
    intro d hd
    have := h d hd
    simp only [timestampOk] at this
    simp [this]
  refine ⟨(resp.insertionSort descByKey).map create_from_deployment, ?_, ?_, ?_, ?_, ?_⟩
  · unfold find_model_server
    rw [hfind]
    simp
  · have hs : List.Sorted descByKey (resp.insertionSort descByKey) :=
      List.sorted_insertionSort descByKey resp
    exact hs.map create_from_deployment (fun a b hab => hab)
  · exact (List.perm_insertionSort descByKey resp).map create_from_deployment
  · intro s _ hmiss
    exact keyOfS_of_missing s hmiss
  · have hs : List.Sorted descByKey (resp.insertionSort descByKey) :=
      List.sorted_insertionSort descByKey resp
    have hp := hs.map create_from_deployment
      (S := fun a b => keyOfS b ≤ keyOfS a) (fun a b hab => hab)
    exact hp.imp (fun {a b} hab hmiss => (keyOfS_of_missing a hmiss) ▸ hab)

/-- A deployment whose creation timestamp is absent. -/
def depC : SeldonDeployment :=
  ⟨3, ⟨none⟩, ⟨"pipe", "run", "step", "model", "s3://m3", "custom", none⟩, true⟩

/-- Witness for the amended C3 theorem at a concrete response containing a
missing-timestamp record listed before two valid ones. -/
theorem find_sorted_desc_of_parsable_witness :
    (∀ d ∈ [depC, depB, depA], timestampOk d) ∧
    (∃ l, (find_model_server [depC, depB, depA] false
          ⟨none, none, none, none, none, none, none⟩).1 = .ok l ∧
      l.Pairwise (fun a b => keyOfS b ≤ keyOfS a) ∧
      l.Perm ([depC, depB, depA].map create_from_deployment) ∧
      (∀ s ∈ l, pyTruthy s.creationTimestamp = false → keyOfS s = datetimeMin.key) ∧
      l.Pairwise (fun a b =>
        pyTruthy a.creationTimestamp = false → keyOfS b ≤ datetimeMin.key)) :=
  ⟨by decide, find_sorted_desc_of_parsable [depC, depB, depA] _ (by decide)⟩

/-- On success, `_create_or_update_kubernetes_secret` returns exactly the
model deployer's `kubernetes_secret_name` property value. -/
theorem create_or_update_ok_name (dcfg : HFSagemakerModelDeployerConfig)
    (store : ArtifactStore) (env : DeployEnv) (r : Option String) (c : List PlatformCall)
    (h : create_or_update_kubernetes_secret dcfg store env = (.ok r, c)) :
    r = some (kubernetes_secret_name dcfg store) := by
  unfold create_or_update_kubernetes_secret at h
  split at h
  · rename_i htr
    have h1 := congrArg Prod.fst h
    simp only [Except.ok.injEq] at h1
    subst h1
    unfold kubernetes_secret_name
    rw [if_pos htr]
    cases hk : dcfg.kubernetes_secret_name with
    | none => rw [hk] at htr; simp [pyTruthy] at htr
    | some n => simp [hk]
  · split at h
    · split at h
      · have h1 := congrArg Prod.fst h
        simp only [Except.ok.injEq] at h1
        exact h1.symm
      · have h1 := congrArg Prod.fst h
        simp at h1
    · split at h
      · have h1 := congrArg Prod.fst h
        simp at h1
      · have h1 := congrArg Prod.fst h
        simp only [Except.ok.injEq] at h1
        exact h1.symm

/-- On success, the secret-resolution step yields the submitted config with
only `secret_name` overridden by Python `or` with the resolved name. -/
theorem resolveConfigSecret_ok (dcfg : HFSagemakerModelDeployerConfig)
    (store : ArtifactStore) (env : DeployEnv) (config cfg1 : SeldonDeploymentConfig)
    (c : List PlatformCall)
    (h : resolveConfigSecret dcfg store env config = (.ok cfg1, c)) :
    cfg1 = { config with
             secret_name := pyOrElse config.secret_name
               (some (kubernetes_secret_name dcfg store)) } := by
  unfold resolveConfigSecret at h
  split at h
  · rename_i htr
    have h1 := congrArg Prod.fst h
    simp only [Except.ok.injEq] at h1
    subst h1
    simp [pyOrElse, htr]
  · rename_i htr
    split at h
    · have h1 := congrArg Prod.fst h
      simp at h1
    · rename_i resolved c0 hco
      have h1 := congrArg Prod.fst h
      simp only [Except.ok.injEq] at h1
      subst h1
      have := create_or_update_ok_name dcfg store env resolved c0 hco
      subst this
      simp [pyOrElse, htr]

/-- A deployment request configuration with no secret reference. -/
def cfgNoSec : SeldonDeploymentConfig :=
  ⟨"pipe", "run", "step", "model", "s3://m2", "custom", none⟩

/-- A deployer configuration with a pre-configured Kubernetes secret. -/
def dcfgPre : HFSagemakerModelDeployerConfig := ⟨some "preset", none⟩

/-- C4 counterexample: the claim states the submitted config is immutable.
The code executes
`config.secret_name = config.secret_name or self._create_or_update_kubernetes_secret()`
(source lines 572-574), so when the submitted config's secret reference is
unset the deploy call overwrites it: a config submitted with
`secret_name = None` ends the call with `secret_name = "preset"`. -/
theorem deploy_mutates_submitted_config :
    (deploy_model [] dcfgPre store0 benignEnv cfgNoSec false 300 99).1.map
        (fun r => r.finalConfig.secret_name) = .ok (some "preset") ∧
    cfgNoSec.secret_name = none := by
  constructor <;> decide

/-- On success, the post-consolidation phase of `deploy_model` returns the
resolved configuration as the final state of the submitted config. -/
theorem deployPhase2_ok_finalConfig (dcfg : HFSagemakerModelDeployerConfig)
    (store : ArtifactStore) (env : DeployEnv) (config : SeldonDeploymentConfig)
    (timeout newUuid : Nat) (service0 : Option SeldonDeploymentService)
    (calls1 : List PlatformCall) (r : DeployResult)
    (h : (deployPhase2 dcfg store env config timeout newUuid service0 calls1).1 = .ok r) :
    r.finalConfig = { config with
                      secret_name := pyOrElse config.secret_name
                        (some (kubernetes_secret_name dcfg store)) } := by
  unfold deployPhase2 at h
  split at h
  · simp at h
  · rename_i cfg1 c2 hres
    have hcfg1 := resolveConfigSecret_ok dcfg store env config cfg1 c2 hres
    subst hcfg1
    split at h
    · split at h
      · simp at h
      · simp only [Except.ok.injEq] at h
        subst h
        rfl
    · split at h
      · simp at h
      · simp only [Except.ok.injEq] at h
        subst h
        rfl

/-- C4 (amended): for every deploy call that completes successfully, every
field of the submitted config other than `secret_name` is unchanged, and
`secret_name` is Python-`or`-ed with the resolved Kubernetes secret name —
i.e. it is overwritten (with the deployer's `kubernetes_secret_name`
property value) exactly when it was submitted falsy, and kept otherwise. -/
theorem deploy_config_frame (equivResp : List SeldonDeployment)
    (dcfg : HFSagemakerModelDeployerConfig) (store : ArtifactStore) (env : DeployEnv)
    (config : SeldonDeploymentConfig) (replace : Bool) (timeout newUuid : Nat)
    (r : DeployResult)
    (h : (deploy_model equivResp dcfg store env config replace timeout newUuid).1 = .ok r) :
    r.finalConfig = { config with
                      secret_name := pyOrElse config.secret_name
                        (some (kubernetes_secret_name dcfg store)) } := by
  unfold deploy_model at h
  split at h
  · split at h
    · simp at h
    · exact deployPhase2_ok_finalConfig dcfg store env config timeout newUuid _ _ r h
  · exact deployPhase2_ok_finalConfig dcfg store env config timeout newUuid _ _ r h

/-- Witness for the amended C4 theorem: a concrete successful deploy whose
submitted config carries a truthy secret reference keeps it unchanged. -/
theorem deploy_config_frame_witness :
    (deploy_model [] dcfgPre store0 benignEnv cfg0 false 300 99).1 =
      .ok ⟨⟨99, cfg0, false, none⟩, cfg0⟩ ∧
    (⟨⟨99, cfg0, false, none⟩, cfg0⟩ : DeployResult).finalConfig =
      { cfg0 with
        secret_name := pyOrElse cfg0.secret_name
          (some (kubernetes_secret_name dcfgPre store0)) } :=
  ⟨by decide,
   deploy_config_frame [] dcfgPre store0 benignEnv cfg0 false 300 99 _ (by decide)⟩

/-- `find_model_server` always issues exactly the one label query. -/
theorem find_model_server_calls (resp : List SeldonDeployment) (running : Bool)
    (q : FindQuery) :
    (find_model_server resp running q).2 = [PlatformCall.findDeployments q] := by
  unfold find_model_server
  split <;> rfl

/-- Every call recorded by the consolidation loop is a stop. -/
theorem consolidateEquivalents_calls (l : List SeldonDeploymentService) :
    ∀ c ∈ (consolidateEquivalents l).2, isStopCall c = true := by
  unfold consolidateEquivalents
  suffices h : ∀ (init : Option SeldonDeploymentService × List PlatformCall),
      (∀ c ∈ init.2, isStopCall c = true) →
      ∀ c ∈ (l.foldl
        (fun acc equivalent_service =>
          match acc.1 with
          | none => (some equivalent_service, acc.2)
          | some s => (some s, acc.2 ++ [PlatformCall.stopService s.uuid])) init).2,
        isStopCall c = true by
    exact h (none, []) (by simp)
  induction l with
  | nil => intro init hinit; exact hinit
  | cons x xs ih =>
    intro init hinit
    simp only [List.foldl_cons]
    apply ih
    cases h1 : init.1 with
    | none => simpa [h1] using hinit
    | some s =>
      simp only [h1]
      intro c hc
      rcases List.mem_append.mp hc with h | h
      · exact hinit c h
      · simp only [List.mem_singleton] at h
        subst h
        rfl

/-- A stop call is not a start call. -/
theorem isStartCall_of_isStopCall (c : PlatformCall) (h : isStopCall c = true) :
    isStartCall c = false := by
  cases c <;> simp_all [isStopCall, isStartCall]

/-- The artifact-store flavor is outside the supported set {S3, GCP, Azure}. -/
def unsupportedFlavor (store : ArtifactStore) : Prop :=
  store.flavor ≠ "s3" ∧ store.flavor ≠ "gcp" ∧ store.flavor ≠ "azure"

instance (store : ArtifactStore) : Decidable (unsupportedFlavor store) := by
  unfold unsupportedFlavor; infer_instance

/-- The store is an Azure store whose configured connection string lacks a
well-formed `AccountName`/`AccountKey` pair. -/
def azureMalformedConnString (store : ArtifactStore) : Prop :=
  store.flavor = "azure" ∧ ∃ az, store.azure_credentials = some az ∧
    ∃ cs, az.connection_string = some cs ∧ azureAccountFromConnectionString cs = none

/-- Under either failure condition, the credential conversion raises
`RuntimeError`. -/
theorem convert_fails_of_bad (store : ArtifactStore)
    (hbad : unsupportedFlavor store ∨ azureMalformedConnString store) :
    ∃ msg, convert_artifact_store_secret store = .error (.runtimeError msg) := by
  unfold convert_artifact_store_secret
  rcases hbad with ⟨h1, h2, h3⟩ | ⟨hfl, az, haz, cs, hcs, hparse⟩
  · rw [if_neg h1, if_neg h2, if_neg h3]
    exact ⟨_, rfl⟩
  · have h1 : ¬store.flavor = "s3" := by rw [hfl]; decide
    have h2 : ¬store.flavor = "gcp" := by rw [hfl]; decide
    rw [if_neg h1, if_neg h2, if_pos hfl]
    simp only [haz, hcs, hparse]
    exact ⟨_, rfl⟩

/-- C9: for every deploy that must resolve credentials through the artifact
store (no secret on the submitted config, no pre-configured Kubernetes
secret, no configured ZenML secret), if the store's flavor is unsupported or
its Azure connection string is malformed, the deploy raises `RuntimeError`
and never issues a start call against the platform (given the equivalents
query itself does not raise first). -/
theorem convert_failure_aborts_before_start (equivResp : List SeldonDeployment)
    (dcfg : HFSagemakerModelDeployerConfig) (store : ArtifactStore) (env : DeployEnv)
    (config : SeldonDeploymentConfig) (replace : Bool) (timeout newUuid : Nat)
    (hsec : pyTruthy config.secret_name = false)
    (hk8s : pyTruthy dcfg.kubernetes_secret_name = false)
    (hzsec : pyTruthy dcfg.secret = false)
    (hts : ∀ d ∈ equivResp, timestampOk d)
    (hbad : unsupportedFlavor store ∨ azureMalformedConnString store) :
    (∃ msg, (deploy_model equivResp dcfg store env config replace timeout newUuid).1 =
        .error (.runtimeError msg)) ∧
    ∀ c ∈ (deploy_model equivResp dcfg store env config replace timeout newUuid).2,
      isStartCall c = false := by
  obtain ⟨msg, hconv⟩ := convert_fails_of_bad store hbad
  have hres : resolveConfigSecret dcfg store env config =
      (.error (.runtimeError msg), []) := by
    unfold resolveConfigSecret
    rw [if_neg (by simp [hsec])]
    unfold create_or_update_kubernetes_secret
    rw [if_neg (by simp [hk8s]), if_neg (by simp [hzsec]), hconv]
  have hphase : deployPhase2 dcfg store env config timeout newUuid = fun s0 calls1 =>
      (.error (.runtimeError msg), calls1 ++ []) := by
    funext s0 calls1
    unfold deployPhase2
    rw [hres]
  unfold deploy_model
  cases replace with
  | false =>
    rw [if_neg (by simp)]
    rw [hphase]
    exact ⟨⟨msg, rfl⟩, by intro c hc; simp at hc⟩
  | true =>
    rw [if_pos rfl]
    have hnone : equivResp.find? (fun d => !(deploymentSortKey d).isOk) = none := by
      rw [List.find?_eq_none]
      intro d hd
      have := hts d hd
      simp only [timestampOk] at this
      simp [this]
    have hfm : find_model_server equivResp false (equivalentsQuery config) =
        (.ok (((equivResp.insertionSort descByKey).map create_from_deployment).filter
          (fun s => !(false && !s.is_running))),
         [PlatformCall.findDeployments (equivalentsQuery config)]) := by
      unfold find_model_server
      rw [hnone]
    rw [hfm, hphase]
    constructor
    · exact ⟨msg, rfl⟩
    · intro c hc
      simp only [List.append_nil, List.mem_append] at hc
      rcases hc with h | h
      · rcases List.mem_singleton.mp h with rfl
        rfl
      · exact isStartCall_of_isStopCall c (consolidateEquivalents_calls _ c h)

/-- The unfiltered service list built by `find_model_server` references a
secret name iff some deployment of the platform response does. -/
theorem services_any_secret (allResp : List SeldonDeployment) (n : String) :
    (((allResp.insertionSort descByKey).map create_from_deployment).filter
        (fun s => !(false && !s.is_running))).any
      (fun s => s.config.secret_name = some n) = true ↔
    ∃ d ∈ allResp, d.config.secret_name = some n := by
  rw [List.any_eq_true]
  constructor
  · rintro ⟨x, hx, hpx⟩
    rw [List.mem_filter] at hx
    obtain ⟨d, hd, rfl⟩ := List.mem_map.mp hx.1
    exact ⟨d, (List.perm_insertionSort descByKey allResp).mem_iff.mp hd,
      by simpa [create_from_deployment] using hpx⟩
  · rintro ⟨d, hd, hdn⟩
    refine ⟨create_from_deployment d, ?_, by simpa [create_from_deployment] using hdn⟩
    rw [List.mem_filter]
    exact ⟨List.mem_map.mpr ⟨d, (List.perm_insertionSort descByKey allResp).mem_iff.mpr hd, rfl⟩,
      by simp⟩

/-- When the secret is not the pre-configured one and the full platform
query parses, `_delete_kubernetes_secret` succeeds, and it issues the
platform's secret deletion iff no known service still references the
secret name. -/
theorem delete_kubernetes_secret_spec (allResp : List SeldonDeployment)
    (dcfg : HFSagemakerModelDeployerConfig) (n : String)
    (hgen : dcfg.kubernetes_secret_name ≠ some n)
    (hall : ∀ d ∈ allResp, timestampOk d) :
    ((delete_kubernetes_secret allResp dcfg n).1 = .ok ()) ∧
    (PlatformCall.deleteSecret n ∈ (delete_kubernetes_secret allResp dcfg n).2 ↔
      ∀ d ∈ allResp, d.config.secret_name ≠ some n) := by
  have hnone : allResp.find? (fun d => !(deploymentSortKey d).isOk) = none := by
    rw [List.find?_eq_none]
    intro d hd
    have := hall d hd
    simp only [timestampOk] at this
    simp [this]
  have hfm : find_model_server allResp false ⟨none, none, none, none, none, none, none⟩ =
      (.ok (((allResp.insertionSort descByKey).map create_from_deployment).filter
        (fun s => !(false && !s.is_running))),
       [PlatformCall.findDeployments ⟨none, none, none, none, none, none, none⟩]) := by
    unfold find_model_server
    rw [hnone]
  unfold delete_kubernetes_secret
  rw [if_neg hgen]
  rw [hfm]
  simp only []
  by_cases hany : (((allResp.insertionSort descByKey).map create_from_deployment).filter
      (fun s => !(false && !s.is_running))).any
        (fun s => s.config.secret_name = some n) = true
  · rw [if_pos hany]
    refine ⟨rfl, ?_⟩
    obtain ⟨d, hd, hdn⟩ := (services_any_secret allResp n).mp hany
    simp only [List.mem_singleton]
    constructor
    · intro hc; cases hc
    · intro hforall
      exact absurd hdn (hforall d hd)
  · rw [if_neg hany]
    refine ⟨rfl, ?_⟩
    constructor
    · intro _ d hd hdn
      exact hany ((services_any_secret allResp n).mpr ⟨d, hd, hdn⟩)
    · intro _
      simp

/-- C8: deleting an existing Service that carries a generated credential
secret (one distinct from the deployer's pre-configured secret name)
releases the secret if and only if no Service reported by the cleanup-time
platform query still references that secret name; either way the delete
succeeds. -/
theorem delete_releases_secret_iff_unreferenced
    (lookupResp allResp : List SeldonDeployment)
    (dcfg : HFSagemakerModelDeployerConfig) (env : DeployEnv)
    (uuid timeout : Nat) (force : Bool)
    (svc : SeldonDeploymentService) (rest : List SeldonDeploymentService) (n : String)
    (hfind : (find_model_server lookupResp false (uuidQuery uuid)).1 = .ok (svc :: rest))
    (hsec : svc.config.secret_name = some n)
    (htr : pyTruthy svc.config.secret_name = true)
    (hgen : dcfg.kubernetes_secret_name ≠ some n)
    (hstop : env.stopRaises svc.uuid = false)
    (hall : ∀ d ∈ allResp, timestampOk d) :
    ((delete_model_server lookupResp allResp dcfg env uuid timeout force).1 = .ok ()) ∧
    (PlatformCall.deleteSecret n ∈
        (delete_model_server lookupResp allResp dcfg env uuid timeout force).2 ↔
      ∀ d ∈ allResp, d.config.secret_name ≠ some n) := by
  have hfull : find_model_server lookupResp false (uuidQuery uuid) =
      (.ok (svc :: rest), [PlatformCall.findDeployments (uuidQuery uuid)]) :=
    Prod.ext hfind (find_model_server_calls lookupResp false (uuidQuery uuid))
  obtain ⟨hok, hiff⟩ := delete_kubernetes_secret_spec allResp dcfg n hgen hall
  have htr2 : pyTruthy (some n) = true := by rw [← hsec]; exact htr
  unfold delete_model_server
  rw [hfull]
  simp only []
  rw [if_neg (by simp [hstop]), hsec, if_pos htr2, Option.getD_some]
  simp only []
  refine ⟨hok, ?_⟩
  rw [← hiff]
  constructor
  · intro hc
    simp only [List.mem_append, List.mem_singleton] at hc
    rcases hc with (hc | hc) | hc
    · cases hc
    · cases hc
    · exact hc
  · intro hc
    exact List.mem_append.mpr (Or.inr hc)

/-- The secret-cleanup helper never stops services, and any secret deletion
it issues targets exactly the secret name it was asked about. -/
theorem delete_kubernetes_secret_calls (allResp : List SeldonDeployment)
    (dcfg : HFSagemakerModelDeployerConfig) (m : String) :
    ((delete_kubernetes_secret allResp dcfg m).2.filter isStopCall = []) ∧
    (∀ n, PlatformCall.deleteSecret n ∈ (delete_kubernetes_secret allResp dcfg m).2 →
      n = m) := by
  unfold delete_kubernetes_secret
  split
  · simp
  · split
    · rename_i e calls heq
      have hc : calls =
          [PlatformCall.findDeployments ⟨none, none, none, none, none, none, none⟩] := by
        have h2 := find_model_server_calls allResp false ⟨none, none, none, none, none, none, none⟩
        rw [heq] at h2
        exact h2
      subst hc
      exact ⟨by simp [isStopCall], by intro n hn; simp at hn⟩
    · rename_i services calls heq
      have hc : calls =
          [PlatformCall.findDeployments ⟨none, none, none, none, none, none, none⟩] := by
        have h2 := find_model_server_calls allResp false ⟨none, none, none, none, none, none, none⟩
        rw [heq] at h2
        exact h2
      subst hc
      split
      · exact ⟨by simp [isStopCall], by intro n hn; simp at hn⟩
      · refine ⟨by simp [isStopCall], ?_⟩
        intro n hn
        simp only [List.mem_append, List.mem_singleton] at hn
        rcases hn with hn | hn
        · simp at hn
        · cases hn
          rfl

/-- C10: when the UUID lookup reports one or more Services, delete stops
only the first Service of the (creation-time-descending) result — exactly
one stop call, targeting its UUID — and any secret considered for cleanup
is that first Service's own secret; other Services carrying the same UUID
receive no platform call. -/
theorem delete_stops_only_first (lookupResp allResp : List SeldonDeployment)
    (dcfg : HFSagemakerModelDeployerConfig) (env : DeployEnv)
    (uuid timeout : Nat) (force : Bool)
    (svc : SeldonDeploymentService) (rest : List SeldonDeploymentService)
    (hfind : (find_model_server lookupResp false (uuidQuery uuid)).1 = .ok (svc :: rest)) :
    ((delete_model_server lookupResp allResp dcfg env uuid timeout force).2.filter
        isStopCall = [PlatformCall.stopService svc.uuid]) ∧
    (∀ n, PlatformCall.deleteSecret n ∈
        (delete_model_server lookupResp allResp dcfg env uuid timeout force).2 →
      svc.config.secret_name = some n) := by
  have hfull : find_model_server lookupResp false (uuidQuery uuid) =
      (.ok (svc :: rest), [PlatformCall.findDeployments (uuidQuery uuid)]) :=
    Prod.ext hfind (find_model_server_calls lookupResp false (uuidQuery uuid))
  unfold delete_model_server
  rw [hfull]
  simp only []
  by_cases hsr : env.stopRaises svc.uuid = true
  · rw [if_pos hsr]
    exact ⟨by simp [isStopCall], by intro n hn; simp at hn⟩
  · rw [if_neg hsr]
    by_cases htr : pyTruthy svc.config.secret_name = true
    · rw [if_pos htr]
      simp only []
      obtain ⟨hfilter, hname⟩ :=
        delete_kubernetes_secret_calls allResp dcfg (svc.config.secret_name.getD "")
      constructor
      · rw [List.filter_append, List.filter_append, hfilter]
        simp [isStopCall]
      · intro n hn
        simp only [List.mem_append, List.mem_singleton] at hn
        rcases hn with (hn | hn) | hn
        · cases hn
        · cases hn
        · have hnm := hname n hn
          cases hns : svc.config.secret_name with
          | none => rw [hns] at htr; simp [pyTruthy] at htr
          | some s =>
            rw [hns] at hnm
            simp only [Option.getD_some] at hnm
            rw [hnm]
    · rw [if_neg htr]
      exact ⟨by simp [isStopCall], by intro n hn; simp at hn⟩

/-- An artifact store of a flavor outside the supported set. -/
def storeLocal : ArtifactStore := ⟨"local", "id1", (none, none, none), none, none, none⟩

/-- Witness for the C9 theorem: a concrete deploy against a `local`-flavored
artifact store with nothing configured fails with `RuntimeError` before any
start call. -/
theorem convert_failure_aborts_before_start_witness :
    (pyTruthy cfgNoSec.secret_name = false ∧
      pyTruthy dcfg0.kubernetes_secret_name = false ∧
      pyTruthy dcfg0.secret = false ∧
      (∀ d ∈ ([] : List SeldonDeployment), timestampOk d) ∧
      unsupportedFlavor storeLocal) ∧
    ((∃ msg, (deploy_model [] dcfg0 storeLocal benignEnv cfgNoSec false 300 99).1 =
        .error (.runtimeError msg)) ∧
      ∀ c ∈ (deploy_model [] dcfg0 storeLocal benignEnv cfgNoSec false 300 99).2,
        isStartCall c = false) :=
  ⟨⟨by decide, by decide, by decide, by decide, by decide⟩,
   convert_failure_aborts_before_start [] dcfg0 storeLocal benignEnv cfgNoSec false 300 99
     (by decide) (by decide) (by decide) (by decide) (Or.inl (by decide))⟩

/-- Witness for the C8 theorem: deleting the service of `depA` (which
carries the generated secret `"secA"`) with one other known service that
references a different secret; the hypotheses hold and the cleanup
condition is exercised through the theorem. -/
theorem delete_releases_secret_iff_unreferenced_witness :
    ((find_model_server [depA] false (uuidQuery 1)).1 =
        .ok [create_from_deployment depA] ∧
      (create_from_deployment depA).config.secret_name = some "secA" ∧
      pyTruthy (create_from_deployment depA).config.secret_name = true ∧
      dcfg0.kubernetes_secret_name ≠ some "secA" ∧
      benignEnv.stopRaises (create_from_deployment depA).uuid = false ∧
      (∀ d ∈ [depB], timestampOk d)) ∧
    (((delete_model_server [depA] [depB] dcfg0 benignEnv 1 300 false).1 = .ok ()) ∧
      (PlatformCall.deleteSecret "secA" ∈
          (delete_model_server [depA] [depB] dcfg0 benignEnv 1 300 false).2 ↔
        ∀ d ∈ [depB], d.config.secret_name ≠ some "secA")) :=
  ⟨⟨by decide, by decide, by decide, by decide, by decide, by decide⟩,
   delete_releases_secret_iff_unreferenced [depA] [depB] dcfg0 benignEnv 1 300 false
     (create_from_deployment depA) [] "secA" (by decide) (by decide) (by decide)
     (by decide) (by decide) (by decide)⟩

/-- Witness for the C10 theorem: a lookup anomalously reporting two
services; only the first (most recent) is stopped. -/
theorem delete_stops_only_first_witness :
    ((find_model_server [depA, depB] false (uuidQuery 1)).1 =
        .ok (create_from_deployment depA :: [create_from_deployment depB])) ∧
    (((delete_model_server [depA, depB] [] dcfg0 benignEnv 1 300 false).2.filter
        isStopCall = [PlatformCall.stopService (create_from_deployment depA).uuid]) ∧
      (∀ n, PlatformCall.deleteSecret n ∈
          (delete_model_server [depA, depB] [] dcfg0 benignEnv 1 300 false).2 →
        (create_from_deployment depA).config.secret_name = some n)) :=
  ⟨by decide,
   delete_stops_only_first [depA, depB] [] dcfg0 benignEnv 1 300 false
     (create_from_deployment depA) [create_from_deployment depB] (by decide)⟩

end HFSagemaker
